import Mathlib

/-!
Shallow embedding of the `retry` Go package (src/retry.go).

Go closures with captured mutable state are embedded as explicit
state-transition functions: a `Worker` becomes `W → Option E × W` (with
`none` standing for Go's `nil` error), a `Limiter` becomes
`E → L → Bool × L`, and a `Timer` becomes a transition on its own state.
A `context.Context` is embedded as a stream `Nat → Bool` of the results of
its successive non-blocking done-observations.  `time.Duration` is a Go
`int64`, so durations are embedded as `Int` with explicit two's-complement
wrap-around applied where the code multiplies.  The retry loop, which may
diverge, is embedded with fuel bounding the number of retry iterations; it
additionally returns the trace of its observable events (worker invocations
with their results, limiter evaluations with their verdicts, timer calls).
-/

namespace RetryGo

/-- Observable events of one `Retry` run: a `Worker` invocation together with
the error it returned (`none` is Go's `nil`), a `Limiter` evaluation of an
error together with its verdict, and a `Timer` call. -/
inductive Event (E : Type) where
  | work (r : Option E)
  | limit (e : E) (b : Bool)
  | sleep
deriving DecidableEq

/-- Embeds the loop of `Retry` (src/retry.go):
`for err != nil && limiter(err) { timer(); err = worker() }`.
The first component of the result is Go's returned error wrapped in `some`,
or `none` when the fuel ran out before the loop terminated; the second is
the trace of events after the initial attempt. -/
def retryLoop {E W L T : Type} (worker : W → Option E × W)
    (limiter : E → L → Bool × L) (timer : T → T) :
    Nat → Option E → W → L → T → Option (Option E) × List (Event E)
  | _, none, _, _, _ => (some none, [])
  | 0, some e, _, l, _ =>
    if (limiter e l).1 then (none, [Event.limit e true])
    else (some (some e), [Event.limit e false])
  | fuel + 1, some e, w, l, t =>
    let d := limiter e l
    if d.1 then
      let a := worker w
      let r := retryLoop worker limiter timer fuel a.1 a.2 d.2 (timer t)
      (r.1, Event.limit e true :: Event.sleep :: Event.work a.1 :: r.2)
    else (some (some e), [Event.limit e false])

/-- Embeds `Retry` (src/retry.go): `err := worker()` followed by the loop.
Returns Go's returned error (`none` when fuel ran out) together with the
full event trace. -/
def Retry {E W L T : Type} (worker : W → Option E × W)
    (limiter : E → L → Bool × L) (timer : T → T)
    (fuel : Nat) (w : W) (l : L) (t : T) : Option (Option E) × List (Event E) :=
  let a := worker w
  let r := retryLoop worker limiter timer fuel a.1 a.2 l t
  (r.1, Event.work a.1 :: r.2)

/-- Embeds the closure returned by `Once()` (src/retry.go): stateless,
always returns `false`. -/
def OnceStep {E : Type} (_e : E) (u : Unit) : Bool × Unit := (false, u)

/-- Embeds the closure returned by `Forever()` (src/retry.go): stateless,
always returns `true`. -/
def ForeverStep {E : Type} (_e : E) (u : Unit) : Bool × Unit := (true, u)

/-- Embeds the closure returned by `Counts(max)` (src/retry.go): its state is
the captured counter `c` (initially `1`); Go's
`for c < max { c++; return true }; return false` enters the body exactly when
`c < max`.  Go's `int` cannot overflow here because `c` is incremented only
while `c < max`. -/
def CountsStep {E : Type} (max : Int) (_e : E) (c : Int) : Bool × Int :=
  if c < max then (true, c + 1) else (false, c)

/-- Embeds the closure returned by `CancelableLimiter(ctx, limiter)`
(src/retry.go): state is the number `k` of done-observations made so far
paired with the interior limiter's state; `done k` is the result of the
non-blocking `select` on `ctx.Done()` at the k-th observation. -/
def CancelableLimiterStep {E S : Type} (done : Nat → Bool)
    (limiter : E → S → Bool × S) (e : E) : Nat × S → Bool × (Nat × S)
  | (k, s) =>
    if done k then (false, (k + 1, s))
    else
      let r := limiter e s
      (r.1, (k + 1, r.2))

/-- Embeds the closure returned by `UntilCanceled(ctx)` (src/retry.go),
which the source defines as `CancelableLimiter(ctx, Forever())`. -/
def UntilCanceledStep {E : Type} (done : Nat → Bool) :
    E → Nat × Unit → Bool × (Nat × Unit) :=
  CancelableLimiterStep done ForeverStep

/-- Two's-complement wrap-around into the signed 64-bit range, modelling
Go's `int64` arithmetic (`time.Duration` is an `int64`). -/
def wrap64 (x : Int) : Int := (x + 2 ^ 63) % 2 ^ 64 - 2 ^ 63

/-- Embeds the closure returned by `MultiplicativeBackoff(base, ceil)`
(src/retry.go): state is the captured `dur`; one call sleeps `dur` and then,
unless `dur == ceil`, doubles `dur` (in `int64` arithmetic) and clamps the
result to `ceil` when it exceeds `ceil`.  Returns the duration slept and the
new `dur`. -/
def MultiplicativeBackoffStep (ceil : Int) (dur : Int) : Int × Int :=
  let slept := dur
  let dur' :=
    if dur ≠ ceil then
      let d := wrap64 (dur * 2)
      if d > ceil then ceil else d
    else dur
  (slept, dur')

/-- The `dur` state of a `MultiplicativeBackoff(base, ceil)` timer after `n`
invocations; the (n+1)-st call sleeps exactly this value. -/
def MBIter (ceil base : Int) : Nat → Int
  | 0 => base
  | n + 1 => (MultiplicativeBackoffStep ceil (MBIter ceil base n)).2

/-- Embeds the closure returned by
`CancelableMultiplicativeBackoff(ctx, base, ceil)` (src/retry.go):
`canceled` tells whether the `select` race was ended by `ctx.Done()` rather
than by the timer firing; it affects only how long the call actually waits.
Returns the duration requested from the timer, whether the wait was cut
short, and the new `dur`, computed exactly as in the non-cancelable
version. -/
def CancelableMultiplicativeBackoffStep (ceil : Int) (canceled : Bool)
    (dur : Int) : Int × Bool × Int :=
  let requested := dur
  let dur' :=
    if dur ≠ ceil then
      let d := wrap64 (dur * 2)
      if d > ceil then ceil else d
    else dur
  (requested, canceled, dur')

/-- Embeds the source's alias `var CMB = CancelableMultiplicativeBackoff`. -/
def CMB := @CancelableMultiplicativeBackoffStep

/-- The `dur` state of a `CancelableMultiplicativeBackoff(ctx, base, ceil)`
timer after `n` invocations, where `cs k` tells whether cancellation cut the
k-th wait short. -/
def CMBIter (ceil : Int) (cs : Nat → Bool) (base : Int) : Nat → Int
  | 0 => base
  | n + 1 =>
    (CancelableMultiplicativeBackoffStep ceil (cs n) (CMBIter ceil cs base n)).2.2

/-- Number of worker invocations recorded in a trace. -/
def countWork {E : Type} : List (Event E) → Nat
  | [] => 0
  | Event.work _ :: r => countWork r + 1
  | _ :: r => countWork r

/-- Number of timer calls recorded in a trace. -/
def countSleep {E : Type} : List (Event E) → Nat
  | [] => 0
  | Event.sleep :: r => countSleep r + 1
  | _ :: r => countSleep r

/-- The result of the last worker invocation recorded in a trace, if any. -/
def lastWork {E : Type} : List (Event E) → Option (Option E)
  | [] => none
  | Event.work r :: rest =>
    match lastWork rest with
    | some x => some x
    | none => some r
  | _ :: rest => lastWork rest

/-- Which event may immediately follow which in a retry trace: a limiter
evaluation only follows a failed worker invocation on that same error, a
timer call only follows a limiter evaluation that answered `true`, and a
worker invocation (past the first) only follows a timer call.  Nothing may
follow a successful worker invocation. -/
def nextOk {E : Type} : Event E → Event E → Prop
  | Event.work r, Event.limit e _ => r = some e
  | Event.limit _ b, Event.sleep => b = true
  | Event.sleep, Event.work _ => True
  | _, _ => False

/-- The two backoff constructors share one escalation of the `dur` state. -/
theorem cmbStep_state_eq (ceil : Int) (canceled : Bool) (dur : Int) :
    (CancelableMultiplicativeBackoffStep ceil canceled dur).2.2 =
      (MultiplicativeBackoffStep ceil dur).2 := rfl

/-- The cancellation stream never influences the `dur` state sequence, which
coincides with the non-cancelable one. -/
theorem cmbIter_eq_mbIter (ceil : Int) (cs : Nat → Bool) (base : Int)
    (n : Nat) : CMBIter ceil cs base n = MBIter ceil base n := by
  induction n with
  | zero => rfl
  | succ n ih => simp [CMBIter, MBIter, cmbStep_state_eq, ih]

/-- In every trace of the loop, prefixed with the initial attempt, events
alternate as `nextOk` prescribes, and worker invocations and timer calls are
in bijection. -/
theorem retryLoop_shape {E W L T : Type} (worker : W → Option E × W)
    (limiter : E → L → Bool × L) (timer : T → T) (fuel : Nat) :
    ∀ (err : Option E) (w : W) (l : L) (t : T),
      List.Chain' nextOk
        (Event.work err :: (retryLoop worker limiter timer fuel err w l t).2) ∧
      countWork (retryLoop worker limiter timer fuel err w l t).2 =
        countSleep (retryLoop worker limiter timer fuel err w l t).2 := by
  induction fuel with
  | zero =>
    rintro (_ | e) w l t
    · simp [retryLoop, countWork, countSleep]
    · by_cases h : (limiter e l).1 <;>
        simp [retryLoop, h, countWork, countSleep, List.chain'_cons, nextOk]
  | succ fuel ih =>
    rintro (_ | e) w l t
    · simp [retryLoop, countWork, countSleep]
    · by_cases h : (limiter e l).1
      · have ihx := ih (worker w).1 (worker w).2 (limiter e l).2 (timer t)
        simp only [retryLoop, h, if_true, countWork, countSleep]
        refine ⟨?_, ?_⟩
        · exact List.chain'_cons.mpr ⟨rfl, List.chain'_cons.mpr ⟨rfl,
            List.chain'_cons.mpr ⟨trivial, ihx.1⟩⟩⟩
        · omega
      · simp [retryLoop, h, countWork, countSleep, List.chain'_cons, nextOk]

/-- C1: in every run of `Retry`, the worker is invoked exactly once per loop
iteration (worker invocations are exactly one more than timer calls), the
trace starts with a worker invocation, and consecutive events obey `nextOk`:
the limiter is evaluated only immediately after a failed attempt on that
attempt's error, the timer is called only immediately after the limiter
answered `true` (so never after the limiter answered `false` and never after
a successful attempt, which ends the trace), and limiter evaluations and
timer calls strictly alternate, never two of either in a row. -/
theorem c1_loop_shape (E W L T : Type) (worker : W → Option E × W)
    (limiter : E → L → Bool × L) (timer : T → T) (fuel : Nat)
    (w : W) (l : L) (t : T) :
    List.Chain' nextOk (Retry worker limiter timer fuel w l t).2 ∧
    (∃ r0, (Retry worker limiter timer fuel w l t).2.head? =
      some (Event.work r0)) ∧
    countWork (Retry worker limiter timer fuel w l t).2 =
      countSleep (Retry worker limiter timer fuel w l t).2 + 1 := by
  have h := retryLoop_shape worker limiter timer fuel (worker w).1 (worker w).2 l t
  refine ⟨h.1, ⟨(worker w).1, rfl⟩, ?_⟩
  simp only [Retry, countWork, countSleep]
  omega

/-- C2: when the first attempt succeeds, `Retry` performs exactly one worker
invocation and no limiter or timer calls, whatever the limiter and timer
are, and returns success. -/
theorem c2_first_success (E W L T : Type) (worker : W → Option E × W)
    (limiter : E → L → Bool × L) (timer : T → T) (fuel : Nat)
    (w : W) (l : L) (t : T) (h : (worker w).1 = none) :
    Retry worker limiter timer fuel w l t = (some none, [Event.work none]) := by
  simp [Retry, h, retryLoop]

/-- Witness for `c2_first_success` at a concrete worker. -/
theorem c2_first_success_witness :
    ((fun u : Unit => ((none : Option Nat), u)) ()).1 = none ∧
    Retry (fun u : Unit => ((none : Option Nat), u)) (CountsStep 3) id 5 () 1 () =
      (some none, [Event.work none]) :=
  ⟨rfl, c2_first_success Nat Unit Int Unit _ (CountsStep 3) id 5 () 1 () rfl⟩

/-- When the loop terminates, its result is exactly the result of the last
worker invocation recorded in the trace prefixed with the initial attempt. -/
theorem retryLoop_lastWork {E W L T : Type} (worker : W → Option E × W)
    (limiter : E → L → Bool × L) (timer : T → T) (fuel : Nat) :
    ∀ (err : Option E) (w : W) (l : L) (t : T) (r : Option E),
      (retryLoop worker limiter timer fuel err w l t).1 = some r →
      lastWork (Event.work err :: (retryLoop worker limiter timer fuel err w l t).2) =
        some r := by
  induction fuel with
  | zero =>
    rintro (_ | e) w l t r h
    · simp [retryLoop] at h
      simp [retryLoop, lastWork, h]
    · by_cases hb : (limiter e l).1
      · simp [retryLoop, hb] at h
      · simp [retryLoop, hb] at h
        simp [retryLoop, hb, lastWork, h]
  | succ fuel ih =>
    rintro (_ | e) w l t r h
    · simp [retryLoop] at h
      simp [retryLoop, lastWork, h]
    · by_cases hb : (limiter e l).1
      · simp only [retryLoop, hb, if_true] at h ⊢
        have ihx := ih (worker w).1 (worker w).2 (limiter e l).2 (timer t) r h
        simp only [lastWork] at ihx ⊢
        rw [ihx]
      · simp [retryLoop, hb] at h
        simp [retryLoop, hb, lastWork, h]

/-- C7: whenever `Retry` terminates, the value it returns is exactly the
result of the worker's last invocation — the last error verbatim when that
invocation failed, and success (`none`) when the terminal attempt succeeded,
however many attempts failed before it. -/
theorem c7_returns_last_result (E W L T : Type) (worker : W → Option E × W)
    (limiter : E → L → Bool × L) (timer : T → T) (fuel : Nat)
    (w : W) (l : L) (t : T) (r : Option E)
    (h : (Retry worker limiter timer fuel w l t).1 = some r) :
    lastWork (Retry worker limiter timer fuel w l t).2 = some r :=
  retryLoop_lastWork worker limiter timer fuel (worker w).1 (worker w).2 l t r h

/-- Witness for `c7_returns_last_result`: a worker that fails twice with
distinct errors and then succeeds, and one that always fails under `Once`. -/
theorem c7_returns_last_result_witness :
    ((Retry (fun n : Nat => (if n < 2 then some n else none, n + 1))
        (ForeverStep) id 5 0 () ()).1 = some none ∧
      lastWork (Retry (fun n : Nat => (if n < 2 then some n else none, n + 1))
        (ForeverStep) id 5 0 () ()).2 = some none) ∧
    ((Retry (fun u : Unit => (some (7 : Nat), u)) OnceStep id 5 () () ()).1 =
        some (some 7) ∧
      lastWork (Retry (fun u : Unit => (some (7 : Nat), u)) OnceStep id 5 () () ()).2 =
        some (some 7)) :=
  ⟨⟨by decide, c7_returns_last_result Nat Nat Unit Unit _ ForeverStep id 5 0 () () none
      (by decide)⟩,
    ⟨by decide, c7_returns_last_result Nat Unit Unit Unit _ OnceStep id 5 () () ()
      (some 7) (by decide)⟩⟩

/-- Running the loop on an always-failing worker with the `Counts(N)`
limiter whose counter currently reads `c` terminates with a failure after
exactly `(N - c).toNat` further worker invocations. -/
theorem retryLoop_counts {E W T : Type} (worker : W → Option E × W)
    (timer : T → T) (hfail : ∀ w, (worker w).1 ≠ none) (N : Int) (fuel : Nat) :
    ∀ (c : Int) (e : E) (w : W) (t : T), (N - c).toNat ≤ fuel →
      (∃ e2, (retryLoop worker (CountsStep N) timer fuel (some e) w c t).1 =
        some (some e2)) ∧
      countWork (retryLoop worker (CountsStep N) timer fuel (some e) w c t).2 =
        (N - c).toNat := by
  induction fuel with
  | zero =>
    intro c e w t hfuel
    have hc : ¬c < N := by omega
    simp [retryLoop, CountsStep, hc, countWork]
    omega
  | succ fuel ih =>
    intro c e w t hfuel
    by_cases hc : c < N
    · rcases he2 : (worker w).1 with _ | e2
      · exact absurd he2 (hfail w)
      · simp only [retryLoop, CountsStep, hc, if_true, he2, countWork]
        have ihx := ih (c + 1) e2 (worker w).2 (timer t) (by omega)
        refine ⟨ihx.1, ?_⟩
        rw [ihx.2]
        omega
    · simp [retryLoop, CountsStep, hc, countWork]
      omega

/-- C3: with an always-failing worker and the `Counts(N)` limiter (counter
starting at 1, as in the source), `Retry` terminates with the final
failure's own error, having invoked the worker `(N - 1).toNat + 1` times:
exactly `N` times when `N ≥ 1`, and exactly once when `N ≤ 1`, zero and
negative `N` included. -/
theorem c3_counts_exhaustion (E W T : Type) (worker : W → Option E × W)
    (timer : T → T) (hfail : ∀ w, (worker w).1 ≠ none) (N : Int) (fuel : Nat)
    (hfuel : (N - 1).toNat ≤ fuel) (w : W) (t : T) :
    ∃ e, (Retry worker (CountsStep N) timer fuel w 1 t).1 = some (some e) ∧
      lastWork (Retry worker (CountsStep N) timer fuel w 1 t).2 = some (some e) ∧
      countWork (Retry worker (CountsStep N) timer fuel w 1 t).2 =
        (N - 1).toNat + 1 ∧
      (1 ≤ N → (countWork (Retry worker (CountsStep N) timer fuel w 1 t).2 : Int) = N) ∧
      (N ≤ 1 → countWork (Retry worker (CountsStep N) timer fuel w 1 t).2 = 1) := by
  rcases he0 : (worker w).1 with _ | e0
  · exact absurd he0 (hfail w)
  · have hcounts := retryLoop_counts worker timer hfail N fuel 1 e0 (worker w).2 t hfuel
    rcases hcounts with ⟨⟨e2, h1⟩, h2⟩
    have hlast := retryLoop_lastWork worker (CountsStep N) timer fuel (worker w).1
      (worker w).2 1 t (some e2) (by rw [he0]; exact h1)
    refine ⟨e2, ?_, ?_, ?_, ?_, ?_⟩
    · simp only [Retry]
      rw [he0]
      exact h1
    · simp only [Retry] at hlast ⊢
      exact hlast
    · simp only [Retry, countWork]
      rw [he0, h2]
    · intro hN
      simp only [Retry, countWork]
      rw [he0, h2]
      omega
    · intro hN
      simp only [Retry, countWork]
      rw [he0, h2]
      omega

/-- Witness for `c3_counts_exhaustion` at `N = 3` and at `N = -2`. -/
theorem c3_counts_exhaustion_witness :
    (∀ u : Unit, (((fun u : Unit => (some (9 : Nat), u)) u).1 ≠ none)) ∧
    (((3 : Int) - 1).toNat ≤ 4) ∧
    (∃ e, (Retry (fun u : Unit => (some (9 : Nat), u)) (CountsStep 3) id 4 () 1 ()).1 =
        some (some e) ∧
      lastWork (Retry (fun u : Unit => (some (9 : Nat), u)) (CountsStep 3) id 4 () 1 ()).2 =
        some (some e) ∧
      countWork (Retry (fun u : Unit => (some (9 : Nat), u)) (CountsStep 3) id 4 () 1 ()).2 =
        ((3 : Int) - 1).toNat + 1 ∧
      (1 ≤ (3 : Int) →
        (countWork (Retry (fun u : Unit => (some (9 : Nat), u)) (CountsStep 3) id 4 () 1 ()).2 : Int) = 3) ∧
      ((3 : Int) ≤ 1 →
        countWork (Retry (fun u : Unit => (some (9 : Nat), u)) (CountsStep 3) id 4 () 1 ()).2 = 1)) ∧
    (∃ e, (Retry (fun u : Unit => (some (9 : Nat), u)) (CountsStep (-2)) id 4 () 1 ()).1 =
        some (some e) ∧
      lastWork (Retry (fun u : Unit => (some (9 : Nat), u)) (CountsStep (-2)) id 4 () 1 ()).2 =
        some (some e) ∧
      countWork (Retry (fun u : Unit => (some (9 : Nat), u)) (CountsStep (-2)) id 4 () 1 ()).2 =
        ((-2 : Int) - 1).toNat + 1 ∧
      (1 ≤ (-2 : Int) →
        (countWork (Retry (fun u : Unit => (some (9 : Nat), u)) (CountsStep (-2)) id 4 () 1 ()).2 : Int) = -2) ∧
      ((-2 : Int) ≤ 1 →
        countWork (Retry (fun u : Unit => (some (9 : Nat), u)) (CountsStep (-2)) id 4 () 1 ()).2 = 1)) :=
  ⟨fun _ => Option.some_ne_none 9, by decide,
    c3_counts_exhaustion Nat Unit Unit _ id (fun _ => Option.some_ne_none 9) 3 4
      (by decide) () (),
    c3_counts_exhaustion Nat Unit Unit _ id (fun _ => Option.some_ne_none 9) (-2) 4
      (by decide) () ()⟩

/-- The state of a `Counts(max)` limiter created with error type `Unit`,
after `n` evaluations; the counter starts at 1 as in the source. -/
def CountsIter (max : Int) : Nat → Int
  | 0 => 1
  | n + 1 => (CountsStep max () (CountsIter max n)).2

/-- The verdict a `Counts(max)` limiter gives on its (n+1)-st evaluation. -/
def CountsOut (max : Int) (n : Nat) : Bool :=
  (CountsStep max () (CountsIter max n)).1

/-- How many of the first `n` evaluations of a `Counts(max)` limiter
answered `true`. -/
def CountsTrueCount (max : Int) : Nat → Nat
  | 0 => 0
  | n + 1 => CountsTrueCount max n + (if CountsOut max n then 1 else 0)

/-- Invariant of the `Counts(max)` counter: it always reads one more than
the number of `true` verdicts given so far, and it never moves past
`max`. -/
theorem countsIter_invariant (max : Int) (n : Nat) :
    CountsIter max n = 1 + CountsTrueCount max n ∧
    (CountsTrueCount max n = 0 ∨ CountsIter max n ≤ max) := by
  induction n with
  | zero => simp [CountsIter, CountsTrueCount]
  | succ n ih =>
    by_cases h : CountsIter max n < max
    · have hout : CountsOut max n = true := by
        simp [CountsOut, CountsStep, h]
      refine ⟨?_, Or.inr ?_⟩ <;>
        simp [CountsIter, CountsTrueCount, CountsStep, h, hout] <;> omega
    · have hout : CountsOut max n = false := by
        simp [CountsOut, CountsStep, h]
      refine ⟨?_, ?_⟩
      · simp [CountsIter, CountsTrueCount, CountsStep, h, hout]
        omega
      · rcases ih.2 with h2 | h2
        · exact Or.inl (by simp [CountsTrueCount, hout, h2])
        · exact Or.inr (by simp [CountsIter, CountsStep, h]; omega)

/-- C10: a `Counts(max)` limiter is permanently stopping once exhausted: its
counter never decreases, once it answers `false` it answers `false` on every
later evaluation, over its whole lifetime it answers `true` at most
`max - 1` times, and when `max ≤ 1` it never answers `true` at all. -/
theorem c10_counts_permanent (max : Int) :
    (∀ (E : Type) (e : E) (c : Int), c ≤ (CountsStep max e c).2) ∧
    (∀ i j, i ≤ j → CountsOut max i = false → CountsOut max j = false) ∧
    (∀ n, CountsTrueCount max n ≤ (max - 1).toNat) ∧
    (max ≤ 1 → ∀ n, CountsOut max n = false) := by
  have hmono : Monotone (CountsIter max) := by
    apply monotone_nat_of_le_succ
    intro n
    simp only [CountsIter, CountsStep]
    split <;> omega
  have hout_iff : ∀ n, CountsOut max n = false ↔ ¬CountsIter max n < max := by
    intro n
    simp [CountsOut, CountsStep]
    split <;> simp_all
  refine ⟨?_, ?_, ?_, ?_⟩
  · intro E e c
    simp only [CountsStep]
    split <;> omega
  · intro i j hij hfalse
    rw [hout_iff] at hfalse ⊢
    have := hmono hij
    omega
  · intro n
    rcases countsIter_invariant max n with ⟨h1, h2 | h2⟩
    · omega
    · omega
  · intro hmax n
    rw [hout_iff]
    have h1 := (countsIter_invariant max n).1
    omega

/-- Witness for `c10_counts_permanent` at `max = 3` and `max = -2`. -/
theorem c10_counts_permanent_witness :
    ((3 : Int) ≤ (CountsStep 3 (0 : Nat) 3).2) ∧
    ((2 : Nat) ≤ 5 ∧ CountsOut 3 2 = false ∧ CountsOut 3 5 = false) ∧
    (CountsTrueCount 3 7 ≤ ((3 : Int) - 1).toNat) ∧
    ((-2 : Int) ≤ 1 ∧ CountsOut (-2) 4 = false) :=
  ⟨(c10_counts_permanent 3).1 Nat 0 3,
    ⟨by decide, by decide,
      (c10_counts_permanent 3).2.1 2 5 (by decide) (by decide)⟩,
    (c10_counts_permanent 3).2.2.1 7,
    ⟨by decide, (c10_counts_permanent (-2)).2.2.2 (by decide) 4⟩⟩

/-- C4: a limiter built by `CancelableLimiter(ctx, inner)` first performs a
non-blocking check of the cancellation signal; if cancellation has occurred
it returns `false` without invoking the inner limiter at all (its state is
untouched and the outcome is the same for every inner limiter), and
otherwise it returns exactly `inner(err)`. -/
theorem c4_cancelable_limiter (E S : Type) (done : Nat → Bool)
    (limiter : E → S → Bool × S) (e : E) (k : Nat) (s : S) :
    (done k = true →
      CancelableLimiterStep done limiter e (k, s) = (false, (k + 1, s)) ∧
      ∀ limiter2 : E → S → Bool × S,
        CancelableLimiterStep done limiter e (k, s) =
          CancelableLimiterStep done limiter2 e (k, s)) ∧
    (done k = false →
      CancelableLimiterStep done limiter e (k, s) =
        ((limiter e s).1, (k + 1, (limiter e s).2))) := by
  constructor
  · intro h
    refine ⟨?_, fun limiter2 => ?_⟩ <;> simp [CancelableLimiterStep, h]
  · intro h
    simp [CancelableLimiterStep, h]

/-- Witness for `c4_cancelable_limiter`: one canceled and one uncanceled
observation. -/
theorem c4_cancelable_limiter_witness :
    ((fun k : Nat => decide (k = 0)) 0 = true ∧
      CancelableLimiterStep (fun k : Nat => decide (k = 0))
        (fun (_ : Nat) (s : Nat) => (true, s + 1)) 5 (0, 8) = (false, (1, 8))) ∧
    ((fun k : Nat => decide (k = 0)) 1 = false ∧
      CancelableLimiterStep (fun k : Nat => decide (k = 0))
        (fun (_ : Nat) (s : Nat) => (true, s + 1)) 5 (1, 8) = (true, (2, 9))) :=
  ⟨⟨by decide,
      ((c4_cancelable_limiter Nat Nat (fun k => decide (k = 0))
        (fun _ s => (true, s + 1)) 5 0 8).1 (by decide)).1⟩,
    ⟨by decide,
      (c4_cancelable_limiter Nat Nat (fun k => decide (k = 0))
        (fun _ s => (true, s + 1)) 5 1 8).2 (by decide)⟩⟩

/-- C5: `UntilCanceled(ctx)` is the source's `CancelableLimiter(ctx,
Forever())`; extensionally, it answers `false` exactly when cancellation has
occurred and `true` otherwise, while `Forever`'s limiter answers `true` and
`Once`'s limiter answers `false` on every error. -/
theorem c5_until_canceled (E : Type) (done : Nat → Bool) (e : E) (k : Nat) :
    (UntilCanceledStep done e (k, ())).1 = !done k ∧
    ForeverStep e () = (true, ()) ∧
    OnceStep e () = (false, ()) ∧
    UntilCanceledStep (E := E) done = CancelableLimiterStep done ForeverStep := by
  refine ⟨?_, rfl, rfl, rfl⟩
  cases h : done k <;> simp [UntilCanceledStep, CancelableLimiterStep, ForeverStep, h]

/-- C8: `CancelableMultiplicativeBackoff` escalates its stored delay exactly
as `MultiplicativeBackoff` does, unconditionally: the new `dur` state equals
the non-cancelable version's, does not depend on whether the wait was cut
short by cancellation, and the duration requested from the timer is the
current `dur`; consequently the whole `dur` state sequence is independent of
the cancellation stream and coincides with `MultiplicativeBackoff`'s. -/
theorem c8_cmb_same_schedule (ceil dur : Int) (canceled : Bool) :
    (CancelableMultiplicativeBackoffStep ceil canceled dur).2.2 =
      (MultiplicativeBackoffStep ceil dur).2 ∧
    (CancelableMultiplicativeBackoffStep ceil true dur).2.2 =
      (CancelableMultiplicativeBackoffStep ceil false dur).2.2 ∧
    (CancelableMultiplicativeBackoffStep ceil canceled dur).1 = dur ∧
    (∀ (cs cs2 : Nat → Bool) (base : Int) (n : Nat),
      CMBIter ceil cs base n = CMBIter ceil cs2 base n ∧
      CMBIter ceil cs base n = MBIter ceil base n) := by
  refine ⟨rfl, rfl, rfl, fun cs cs2 base n => ⟨?_, cmbIter_eq_mbIter ceil cs base n⟩⟩
  rw [cmbIter_eq_mbIter, cmbIter_eq_mbIter]

/-- On values inside the signed 64-bit range, the wrap-around is the
identity. -/
theorem wrap64_eq_self (x : Int) (h1 : -(2 ^ 63) ≤ x) (h2 : x < 2 ^ 63) :
    wrap64 x = x := by
  have hsplit : (2 : Int) ^ 64 = 2 ^ 63 + 2 ^ 63 := by ring
  have hb : (0 : Int) ≤ x + 2 ^ 63 := by linarith
  have hc : x + 2 ^ 63 < 2 ^ 64 := by linarith
  unfold wrap64
  rw [Int.emod_eq_of_lt hb hc]
  ring

/-- A backoff whose `dur` equals the ceiling keeps it unchanged. -/
theorem mbStep_at_ceil (ceil : Int) :
    (MultiplicativeBackoffStep ceil ceil).2 = ceil := by
  simp [MultiplicativeBackoffStep]

/-- Once the backoff state has reached the ceiling it stays there. -/
theorem mbIter_absorbed (ceil base : Int) (n m : Nat)
    (h : MBIter ceil base n = ceil) (hnm : n ≤ m) :
    MBIter ceil base m = ceil := by
  induction m, hnm using Nat.le_induction with
  | base => exact h
  | succ m hm ih => simp [MBIter, ih, mbStep_at_ceil]

/-- C6 counterexample: the claimed general transition
`delay' = min(delay*2, ceiling)` fails on the code for `int64` durations.
With `base = 2^62` and `ceiling = 2^62 + 1` (both representable), the first
invocation doubles `dur` in `int64` arithmetic, overflowing to `-2^63`,
which the `dur > ceil` clamp then leaves alone — not the claimed
`min(2^63, 2^62 + 1) = 2^62 + 1`. -/
theorem c6_backoff_counterexample :
    (4611686018427387904 : Int) ≠ 4611686018427387905 ∧
    MBIter 4611686018427387905 4611686018427387904 0 = 4611686018427387904 ∧
    MBIter 4611686018427387905 4611686018427387904 1 = -9223372036854775808 ∧
    (MultiplicativeBackoffStep 4611686018427387905 4611686018427387904).2 ≠
      min ((4611686018427387904 : Int) * 2) 4611686018427387905 := by
  decide

/-- C6 (amended): `MultiplicativeBackoff(base=1, ceiling=4)` sleeps the
sequence 1, 2, 4, 4, …; every call sleeps the current delay; a delay equal
to the ceiling is absorbing, unconditionally; and the transition
`delay' = min(delay*2, ceiling)` holds for `delay ≠ ceiling` provided the
doubling stays inside the signed 64-bit range. -/
theorem c6_backoff_schedule :
    (MBIter 4 1 0 = 1 ∧ MBIter 4 1 1 = 2 ∧ ∀ n, 2 ≤ n → MBIter 4 1 n = 4) ∧
    (∀ ceil dur : Int, (MultiplicativeBackoffStep ceil dur).1 = dur) ∧
    (∀ ceil : Int, (MultiplicativeBackoffStep ceil ceil).2 = ceil) ∧
    (∀ (ceil base : Int) (n m : Nat), MBIter ceil base n = ceil → n ≤ m →
      MBIter ceil base m = ceil) ∧
    (∀ ceil dur : Int, dur ≠ ceil → -(2 ^ 63) ≤ dur * 2 → dur * 2 < 2 ^ 63 →
      (MultiplicativeBackoffStep ceil dur).2 = min (dur * 2) ceil) := by
  refine ⟨⟨rfl, by decide, fun n hn => mbIter_absorbed 4 1 2 n (by decide) hn⟩,
    fun ceil dur => rfl, mbStep_at_ceil, mbIter_absorbed, ?_⟩
  intro ceil dur hne h1 h2
  simp only [MultiplicativeBackoffStep]
  rw [if_pos hne, wrap64_eq_self _ h1 h2]
  split <;> omega

/-- Witness for `c6_backoff_schedule` at concrete points. -/
theorem c6_backoff_schedule_witness :
    ((2 : Nat) ≤ 5 ∧ MBIter 4 1 5 = 4) ∧
    (MBIter 7 7 0 = 7 ∧ (0 : Nat) ≤ 3 ∧ MBIter 7 7 3 = 7) ∧
    ((3 : Int) ≠ 10 ∧ -(2 ^ 63) ≤ (3 : Int) * 2 ∧ (3 : Int) * 2 < 2 ^ 63 ∧
      (MultiplicativeBackoffStep 10 3).2 = min ((3 : Int) * 2) 10) :=
  ⟨⟨by decide, c6_backoff_schedule.1.2.2 5 (by decide)⟩,
    ⟨rfl, by decide, c6_backoff_schedule.2.2.2.1 7 7 0 3 rfl (by decide)⟩,
    ⟨by decide, by decide, by decide,
      c6_backoff_schedule.2.2.2.2 10 3 (by decide) (by decide) (by decide)⟩⟩

/-- C9 counterexample: with `base = -3 > ceiling = -4` (legal, if odd,
`time.Duration` values) the second and later delays are not clamped to the
ceiling: the doubled `-6` is not `> -4`, so the state moves to `-6`, and
likewise for the cancelable variant. -/
theorem c9_base_above_ceiling_counterexample :
    ((-3 : Int) > -4) ∧
    (MultiplicativeBackoffStep (-4) (-3)).1 = -3 ∧
    MBIter (-4) (-3) 1 = -6 ∧ ((-6 : Int) ≠ -4) ∧
    CMBIter (-4) (fun _ => false) (-3) 1 = -6 := by
  decide

/-- C9 (amended): for a nonnegative `base` whose doubling stays inside
`int64` and a `ceiling` strictly below it, the ceiling is not enforced on
the initial state: the first invocation sleeps the full `base` (which
exceeds the ceiling), and from the second invocation onward the delay is
exactly the ceiling, for both `MultiplicativeBackoff` and its cancelable
variant under every cancellation stream. -/
theorem c9_base_above_ceiling (base ceil : Int) (h0 : 0 ≤ base)
    (hov : base * 2 < 2 ^ 63) (hgt : ceil < base) :
    (MultiplicativeBackoffStep ceil base).1 = base ∧
    MBIter ceil base 0 = base ∧
    (∀ n, 1 ≤ n → MBIter ceil base n = ceil) ∧
    (∀ (cs : Nat → Bool) (n : Nat), 1 ≤ n → CMBIter ceil cs base n = ceil) := by
  have hnn : (0 : Int) ≤ base * 2 := by omega
  have hlow : -(2 ^ 63 : Int) ≤ base * 2 := le_trans (by norm_num) hnn
  have h1 : MBIter ceil base 1 = ceil := by
    have hne : base ≠ ceil := by omega
    simp only [MBIter, MultiplicativeBackoffStep]
    rw [if_pos hne, wrap64_eq_self _ hlow hov, if_pos (by omega)]
  refine ⟨rfl, rfl, fun n hn => mbIter_absorbed ceil base 1 n h1 hn,
    fun cs n hn => ?_⟩
  rw [cmbIter_eq_mbIter]
  exact mbIter_absorbed ceil base 1 n h1 hn

/-- Witness for `c9_base_above_ceiling` at `base = 10`, `ceiling = 4`. -/
theorem c9_base_above_ceiling_witness :
    ((0 : Int) ≤ 10 ∧ (10 : Int) * 2 < 2 ^ 63 ∧ (4 : Int) < 10) ∧
    (MultiplicativeBackoffStep 4 10).1 = 10 ∧
    ((1 : Nat) ≤ 3 ∧ MBIter 4 10 3 = 4) ∧
    CMBIter 4 (fun k => k == 0) 10 2 = 4 :=
  ⟨⟨by decide, by decide, by decide⟩,
    (c9_base_above_ceiling 10 4 (by decide) (by decide) (by decide)).1,
    ⟨by decide,
      (c9_base_above_ceiling 10 4 (by decide) (by decide) (by decide)).2.2.1 3
        (by decide)⟩,
    (c9_base_above_ceiling 10 4 (by decide) (by decide) (by decide)).2.2.2
      (fun k => k == 0) 2 (by decide)⟩

end RetryGo
